import Mathlib

/-!
Verification development for the INSEAD newsroom scraper
(src/inseadnews.py).

The Python source is shallowly embedded here.  Pure helpers of the script
(normalize_url, the per-card processing loop, the AJAX command selection,
the pagination-token fallback logic, the publication-date extraction) are
translated into executable Lean definitions; I/O boundaries (HTTP fetches,
the Airtable client, logging) are abstracted as explicit inputs/oracles.

The script runs on CPython; the standard-library routines it calls
(urllib.parse.urlparse / urljoin, datetime.fromisoformat / strptime) are
modelled from CPython 3.11.6's sources, the interpreter version this
development targets.  Two documented simplifications of the stdlib model:
  * Python's int() literal parser also tolerates signs, surrounding
    whitespace and underscores; the model accepts plain ASCII-digit
    strings only (every call site in the modelled code paths feeds it
    slices intended to be digit runs).
  * urllib's _checknetloc applies an NFKC-normalization check to
    non-ASCII netlocs (it is a no-op for ASCII, and an identity check for
    strings without Unicode compatibility characters); the model treats
    NFKC as the identity, so the check never fails.  All no-raise
    theorems below therefore restrict to ASCII inputs.

Strings are handled as `List Char` internally, with `String.mk`/`toList`
at the boundaries.
-/

/-! ## Small Python-style string helpers -/

/-- Split a list at the first occurrence of a character: returns the part
before it and, if the character occurs, the part after it.  This is the
workhorse used to model Python's `str.find` + slicing and
`str.split(c, 1)` / `str.partition(c)` idioms. -/
def splitAtChar (ch : Char) : List Char → List Char × Option (List Char)
  | [] => ([], none)
  | c :: t =>
    if c = ch then ([], some t)
    else
      let r := splitAtChar ch t
      (c :: r.1, r.2)

/-- Python `str.split(sep)` for a one-character separator: keeps empty
chunks, yields one chunk even for the empty string.  `List.splitOn` has
exactly these semantics. -/
def pySplit (ch : Char) (l : List Char) : List (List Char) :=
  List.splitOn ch l

/-- Value of a run of decimal digits. -/
def digitsToNat (l : List Char) : Nat :=
  l.foldl (fun a c => a * 10 + (c.toNat - 48)) 0

/-- Model of Python `int(s)` on the modelled code paths: a non-empty run
of ASCII digits (see the module comment for the documented restriction). -/
def pyIntDec (l : List Char) : Option Nat :=
  if l ≠ [] ∧ l.all Char.isDigit then some (digitsToNat l) else none

def isHexDigitChar (c : Char) : Bool :=
  c.isDigit || ('a' ≤ c && c ≤ 'f') || ('A' ≤ c && c ≤ 'F')

def hexDigitVal (c : Char) : Nat :=
  if c.isDigit then c.toNat - 48
  else if 'a' ≤ c && c ≤ 'f' then c.toNat - 87
  else c.toNat - 55

def hexToNat (l : List Char) : Nat :=
  l.foldl (fun a c => a * 16 + hexDigitVal c) 0

/-- Python `"%x" % n` (lowercase hex, no padding). -/
def natToHexChars (n : Nat) : List Char :=
  Nat.toDigits 16 n

/-- Python truthiness of a string. -/
def pyTruthy (s : String) : Bool :=
  !(s == "")

/-! ## Model of urllib.parse (CPython 3.11.6)

`urlsplit` lstrips WHATWG "C0 control or space" characters, removes
tab/CR/LF anywhere, detects a scheme (first char ASCII alpha, all chars
in `scheme_chars`, a colon present after at least one char), splits a
`//`-introduced netloc at the first of `/?#`, validates square brackets
in the netloc (raising ValueError on unbalanced brackets, and on balanced
brackets whose content is not a valid IPv6/IPvFuture host), then splits
off fragment (first `#`) and query (first `?`).  Errors are modelled as
`Except.error`. -/

def isC0OrSpace (c : Char) : Bool := c.toNat ≤ 32

def isRemovedURLByte (c : Char) : Bool := c = '\t' || c = '\r' || c = '\n'

/-- Characters allowed in a URL scheme (`scheme_chars` in urllib). -/
def schemeChar (c : Char) : Bool :=
  c.isAlpha || c.isDigit || c = '+' || c = '-' || c = '.'

/-- The lstrip-and-remove preprocessing urlsplit applies to its input. -/
def preprocessURL (l : List Char) : List Char :=
  (l.dropWhile isC0OrSpace).filter (fun c => !(isRemovedURLByte c))

/-- Scheme detection of urlsplit: `i = url.find(':')`, guarded by
`i > 0 and url[0].isascii() and url[0].isalpha()` and a `scheme_chars`
sweep of `url[:i]`.  Returns (scheme, remaining url); on no match returns
the supplied default scheme and the untouched url.  (Lean's
`Char.isAlpha` is ASCII-only, matching `isascii() and isalpha()`.) -/
def splitSchemePy (defaultScheme url : List Char) : List Char × List Char :=
  match splitAtChar ':' url with
  | (c :: pre, some rest) =>
    if c.isAlpha && (c :: pre).all schemeChar then ((c :: pre).map Char.toLower, rest)
    else (defaultScheme, url)
  | _ => (defaultScheme, url)

def netlocDelim (c : Char) : Bool := c = '/' || c = '?' || c = '#'

/-- `_splitnetloc`: if the url starts with `//`, the netloc runs to the
first of `/?#` (searching from position 2). -/
def splitNetlocPy (url : List Char) : List Char × List Char :=
  match url with
  | '/' :: '/' :: rest =>
    (rest.takeWhile (fun c => !(netlocDelim c)), rest.dropWhile (fun c => !(netlocDelim c)))
  | _ => ([], url)

/-! ### ipaddress validation used by `_check_bracketed_host` -/

/-- `_parse_octet` of ipaddress.IPv4Address: 1-3 ASCII digits, no leading
zero (except "0" itself), value at most 255. -/
def parseOctet (o : List Char) : Option Nat :=
  if o = [] then none
  else if !(o.all Char.isDigit) then none
  else if o.length > 3 then none
  else if o ≠ ['0'] ∧ o.headD ' ' = '0' then none
  else
    let v := digitsToNat o
    if v > 255 then none else some v

/-- IPv4Address(string): rejects `/`, requires exactly 4 octets. Returns
the 32-bit value (needed for the IPv4-suffix form of IPv6 addresses). -/
def ipv4Value (s : List Char) : Option Nat :=
  if s.contains '/' then none
  else if s = [] then none
  else
    let octets := pySplit '.' s
    if octets.length ≠ 4 then none
    else
      match octets.mapM parseOctet with
      | none => none
      | some vs => some (vs.foldl (fun a o => a * 256 + o) 0)

/-- `_parse_hextet`: hex digits only, at most 4 of them, non-empty
(the empty string fails Python's `int(s, 16)`). -/
def hexIntOk (h : List Char) : Bool :=
  h ≠ [] && h.all isHexDigitChar && h.length ≤ 4

/-- Indices of empty parts strictly between the endpoints (the candidate
positions of a `::` run skip). -/
def emptyMidIdxs (parts : List (List Char)) : List Nat :=
  (List.range parts.length).filter
    (fun i => decide (1 ≤ i) && decide (i + 1 < parts.length) && (parts.getD i [' '] == ([] : List Char)))

/-- `_BaseV6._ip_int_from_string`, validity only: splits on `:`, needs at
least 3 parts, converts a dotted IPv4 suffix into two hextets, at most 9
parts, at most one empty part strictly inside (the `::`), endpoint-empty
parts only adjacent to the `::`, at least one part skipped by a `::`,
exactly 8 parts without one, and every consumed part a valid hextet. -/
def v6IntOk (addr : List Char) : Bool :=
  if addr = [] then false
  else
    let parts0 := pySplit ':' addr
    if parts0.length < 3 then false
    else
      let withV4 : Option (List (List Char)) :=
        if (parts0.getLastD []).contains '.' then
          match ipv4Value (parts0.getLastD []) with
          | none => none
          | some v => some (parts0.dropLast ++ [natToHexChars (v / 65536), natToHexChars (v % 65536)])
        else some parts0
      match withV4 with
      | none => false
      | some parts =>
        if parts.length > 9 then false
        else
          match emptyMidIdxs parts with
          | [] =>
            parts.length = 8 && !(parts.headD [' '] == ([] : List Char))
              && !(parts.getLastD [' '] == ([] : List Char)) && parts.all hexIntOk
          | [k] =>
            let firstEmpty := parts.headD [' '] == ([] : List Char)
            let lastEmpty := parts.getLastD [' '] == ([] : List Char)
            if firstEmpty && !(k == 1) then false
            else if lastEmpty && !(k + 2 == parts.length) then false
            else
              let hi := if firstEmpty then k - 1 else k
              let lo0 := parts.length - k - 1
              let lo := if lastEmpty then lo0 - 1 else lo0
              if hi + lo > 7 then false
              else ((parts.take hi).all hexIntOk) && ((parts.drop (parts.length - lo)).all hexIntOk)
          | _ => false

/-- IPv6Address(string): rejects `/`, splits an optional `%scope` (scope
non-empty, no further `%`), validates the address part. -/
def isValidIPv6Addr (s : List Char) : Bool :=
  if s.contains '/' then false
  else
    match splitAtChar '%' s with
    | (addr, none) => v6IntOk addr
    | (addr, some scope) => scope ≠ [] && !(scope.contains '%') && v6IntOk addr

/-- `_check_bracketed_host`: hostnames starting with `v` must match
`\Av[a-fA-F0-9]+\..+\Z` (IPvFuture); otherwise `ipaddress.ip_address`
must succeed and the result must not be IPv4. -/
def checkBracketedHost (h : List Char) : Bool :=
  match h with
  | 'v' :: rest =>
    let hex := rest.takeWhile isHexDigitChar
    let rest2 := rest.drop hex.length
    (hex ≠ []) && (match rest2 with
                   | '.' :: tail => tail ≠ [] && !(tail.contains '\n')
                   | _ => false)
  | _ =>
    if (ipv4Value h).isSome then false
    else isValidIPv6Addr h

/-- `netloc.partition('[')[2].partition(']')[0]`. -/
def bracketedHostOf (netloc : List Char) : List Char :=
  match splitAtChar '[' netloc with
  | (_, some rest) => (splitAtChar ']' rest).1
  | (_, none) => []

structure SplitResult where
  scheme : List Char
  netloc : List Char
  path : List Char
  query : List Char
  fragment : List Char
deriving Repr, DecidableEq

/-- urllib.parse.urlsplit (allow_fragments=True), CPython 3.11.6. -/
def urlsplitPy (defaultScheme url : List Char) : Except Unit SplitResult :=
  let url0 := preprocessURL url
  let sr := splitSchemePy defaultScheme url0
  let nr := splitNetlocPy sr.2
  let netloc := nr.1
  if (netloc.contains '[' && !(netloc.contains ']'))
      || (netloc.contains ']' && !(netloc.contains '[')) then .error ()
  else if netloc.contains '[' && netloc.contains ']'
      && !(checkBracketedHost (bracketedHostOf netloc)) then .error ()
  else
    let fr := splitAtChar '#' nr.2
    let qr := splitAtChar '?' fr.1
    .ok ⟨sr.1, netloc, qr.1, (qr.2.getD []), (fr.2.getD [])⟩

def usesParams : List (List Char) :=
  (["", "ftp", "hdl", "prospero", "http", "imap", "https", "shttp", "rtsp",
    "rtsps", "rtspu", "sip", "sips", "mms", "sftp", "tel"]).map String.toList

def usesRelative : List (List Char) :=
  (["", "ftp", "http", "gopher", "nntp", "imap", "wais", "file", "https",
    "shttp", "mms", "prospero", "rtsp", "rtsps", "rtspu", "sftp", "svn",
    "svn+ssh", "ws", "wss"]).map String.toList

def usesNetloc : List (List Char) :=
  (["", "ftp", "http", "gopher", "nntp", "telnet", "imap", "wais", "file",
    "mms", "https", "shttp", "snews", "prospero", "rtsp", "rtsps", "rtspu",
    "rsync", "svn", "svn+ssh", "sftp", "nfs", "git", "git+ssh", "ws",
    "wss"]).map String.toList

/-- `_splitparams`: split the params off the last path segment at its
first `;` (no-op when the last segment has no `;`). -/
def splitparamsPy (p : List Char) : List Char × List Char :=
  if p.contains '/' then
    match splitAtChar ';' ((p.reverse.takeWhile (fun c => !(c = '/'))).reverse) with
    | (_, none) => (p, [])
    | (b1, some b2) =>
      let stem := (p.reverse.dropWhile (fun c => !(c = '/'))).reverse
      (stem ++ b1, b2)
  else
    match splitAtChar ';' p with
    | (a, some b) => (a, b)
    | (a, none) => (a, [])

structure ParseResult where
  scheme : List Char
  netloc : List Char
  path : List Char
  params : List Char
  query : List Char
  fragment : List Char
deriving Repr, DecidableEq

/-- urllib.parse.urlparse, CPython 3.11.6: urlsplit plus the params split
(guarded by `scheme in uses_params and ';' in url`). -/
def urlparsePy (defaultScheme url : List Char) : Except Unit ParseResult :=
  (urlsplitPy defaultScheme url).map fun r =>
    if usesParams.contains r.scheme && r.path.contains ';' then
      let pp := splitparamsPy r.path
      ⟨r.scheme, r.netloc, pp.1, pp.2, r.query, r.fragment⟩
    else ⟨r.scheme, r.netloc, r.path, [], r.query, r.fragment⟩

/-- urllib.parse.urlunsplit. -/
def urlunsplitPy (scheme netloc url query fragment : List Char) : List Char :=
  let url1 :=
    if !netloc.isEmpty
        || (!scheme.isEmpty && usesNetloc.contains scheme && url.take 2 ≠ ['/', '/']) then
      let url2 := if !url.isEmpty && url.take 1 ≠ ['/'] then '/' :: url else url
      '/' :: '/' :: (netloc ++ url2)
    else url
  let url3 := if !scheme.isEmpty then scheme ++ ':' :: url1 else url1
  let url4 := if !query.isEmpty then url3 ++ '?' :: query else url3
  if !fragment.isEmpty then url4 ++ '#' :: fragment else url4

/-- urllib.parse.urlunparse. -/
def urlunparsePy (scheme netloc url params query fragment : List Char) : List Char :=
  urlunsplitPy scheme netloc (if !params.isEmpty then url ++ ';' :: params else url) query fragment

/-- urllib.parse.urljoin, CPython 3.11.6.  Raises (models ValueError)
exactly when one of the two urlparse calls raises. -/
def urljoinPy (base url : String) : Except Unit String :=
  if base = "" then .ok url
  else if url = "" then .ok base
  else
    match urlparsePy [] base.toList with
    | .error e => .error e
    | .ok b =>
      match urlparsePy b.scheme url.toList with
      | .error e => .error e
      | .ok u =>
        if u.scheme ≠ b.scheme || !(usesRelative.contains u.scheme) then .ok url
        else if usesNetloc.contains u.scheme && !u.netloc.isEmpty then
          .ok (String.mk (urlunparsePy u.scheme u.netloc u.path u.params u.query u.fragment))
        else
          let netloc := if usesNetloc.contains u.scheme then b.netloc else u.netloc
          if u.path.isEmpty && u.params.isEmpty then
            let query := if u.query.isEmpty then b.query else u.query
            .ok (String.mk (urlunparsePy u.scheme netloc b.path b.params query u.fragment))
          else
            let baseParts0 := pySplit '/' b.path
            let baseParts :=
              if baseParts0.getLastD [] ≠ [] then baseParts0.dropLast else baseParts0
            let segments :=
              if u.path.take 1 = ['/'] then pySplit '/' u.path
              else
                match baseParts ++ pySplit '/' u.path with
                | [] => []
                | [x] => [x]
                | x :: rest =>
                  x :: ((rest.dropLast).filter (fun s => !s.isEmpty) ++ [rest.getLastD []])
            let resolved := segments.foldl
              (fun acc seg =>
                if seg = ['.', '.'] then acc.dropLast
                else if seg = ['.'] then acc
                else acc ++ [seg]) ([] : List (List Char))
            let resolved2 :=
              if segments.getLastD [] = ['.'] || segments.getLastD [] = ['.', '.'] then
                resolved ++ [[]]
              else resolved
            let joined := List.intercalate ['/'] resolved2
            .ok (String.mk (urlunparsePy u.scheme netloc
              (if joined.isEmpty then ['/'] else joined) u.params u.query u.fragment))

/-! ## normalize_url (src/inseadnews.py, lines 40-43)

    def normalize_url(url):
        parsed = urlparse(url)
        return f"{parsed.scheme}://{parsed.netloc}{parsed.path}".rstrip("/")
-/

/-- Python `str.rstrip("/")`: remove every trailing slash. -/
def rstripSlashes : List Char → List Char
  | [] => []
  | c :: t =>
    match rstripSlashes t with
    | [] => if c = '/' then [] else [c]
    | r => c :: r

/-- normalize_url from the script: urlparse, then reassemble
scheme://netloc+path and strip trailing slashes.  Propagates urlparse's
ValueError as `Except.error`. -/
def normalize_url (url : String) : Except Unit String :=
  match urlparsePy [] url.toList with
  | .error e => .error e
  | .ok p => .ok (String.mk (rstripSlashes (p.scheme ++ ':' :: '/' :: '/' :: (p.netloc ++ p.path))))

/-! ## Model of datetime (CPython 3.11.6)

Only what `extract_publication_date` needs: `datetime.fromisoformat`
(success/failure plus the year-month-day of the result — the attached
timezone never influences `strftime("%Y-%m-%d")`), `datetime.strptime`
with the fixed format `"%d %b %Y"`, and `strftime("%Y-%m-%d")`. -/

def pyIsLeap (y : Nat) : Bool := y % 4 = 0 && (y % 100 ≠ 0 || y % 400 = 0)

/-- `_DAYS_IN_MONTH` (index 0 is a dummy). -/
def daysInMonthTab : List Nat := [0, 31, 28, 31, 30, 31, 30, 31, 31, 30, 31, 30, 31]

/-- `_DAYS_BEFORE_MONTH` (index 0 is a dummy). -/
def daysBeforeMonthTab : List Nat := [0, 0, 31, 59, 90, 120, 151, 181, 212, 243, 273, 304, 334]

def pyDaysInMonth (y m : Nat) : Nat :=
  if m = 2 && pyIsLeap y then 29 else daysInMonthTab.getD m 0

def pyDaysBeforeYear (y : Nat) : Nat :=
  (y - 1) * 365 + (y - 1) / 4 - (y - 1) / 100 + (y - 1) / 400

/-- `_ymd2ord`: proleptic-Gregorian ordinal, 0001-01-01 is day 1. -/
def pyYmd2ord (y m d : Nat) : Nat :=
  pyDaysBeforeYear y + daysBeforeMonthTab.getD m 0
    + (if m > 2 && pyIsLeap y then 1 else 0) + d

/-- `_ord2ymd` (the constants are `_DI400Y = 146097`, `_DI100Y = 36524`,
`_DI4Y = 1461`). -/
def pyOrd2ymd (ord : Nat) : Nat × Nat × Nat :=
  let n0 := ord - 1
  let n400 := n0 / 146097
  let n1r := n0 % 146097
  let n100 := n1r / 36524
  let n2r := n1r % 36524
  let n4 := n2r / 1461
  let n3r := n2r % 1461
  let n1 := n3r / 365
  let n := n3r % 365
  let year := n400 * 400 + 1 + n100 * 100 + n4 * 4 + n1
  if n1 = 4 || n100 = 4 then (year - 1, 12, 31)
  else
    let leapyear := n1 = 3 && (n4 ≠ 24 || n100 = 3)
    let month0 := (n + 50) / 32
    let preceding0 := daysBeforeMonthTab.getD month0 0 + (if month0 > 2 && leapyear then 1 else 0)
    let month := if preceding0 > n then month0 - 1 else month0
    let preceding :=
      if preceding0 > n then
        preceding0 - (daysInMonthTab.getD month 0 + (if month = 2 && leapyear then 1 else 0))
      else preceding0
    (year, month, n - preceding + 1)

/-- `_isoweek1monday`: ordinal of the Monday starting ISO week 1. -/
def isoweek1monday (year : Nat) : Int :=
  let firstday : Int := pyYmd2ord year 1 1
  let firstweekday := (firstday + 6) % 7
  let week1monday := firstday - firstweekday
  if firstweekday > 3 then week1monday + 7 else week1monday

/-- `_isoweek_to_gregorian` (validity checks included; `none` models the
ValueError). -/
def isoweekToGregorian (year week day : Nat) : Option (Nat × Nat × Nat) :=
  if !(1 ≤ year && year ≤ 9999) then none
  else
    let okWeek :=
      if 1 ≤ week && week ≤ 52 then true
      else if week = 53 then
        let firstWeekday := pyYmd2ord year 1 1 % 7
        firstWeekday = 4 || (firstWeekday = 3 && pyIsLeap year)
      else false
    if !okWeek then none
    else if !(1 ≤ day && day ≤ 7) then none
    else
      let dayOffset : Int := ((week - 1) * 7 + (day - 1) : Nat)
      let ordDay : Int := isoweek1monday year + dayOffset
      some (pyOrd2ymd ordDay.toNat)

/-- `_find_isoformat_datetime_separator` (the position of the date/time
separator character; `none` models its ValueError).  The caller
guarantees the input has length at least 7. -/
def findIsoSep (l : List Char) : Option Nat :=
  if l.length = 7 then some 7
  else if l.getD 4 ' ' = '-' then
    if l.getD 5 ' ' = 'W' then
      if l.length < 8 then none
      else if l.length > 8 && l.getD 8 ' ' = '-' then
        if l.length = 9 then none
        else if l.length > 10 && (l.getD 10 ' ').isDigit then some 8
        else some 10
      else some 8
    else some 10
  else
    if l.getD 4 ' ' = 'W' then
      let idx := 7 + ((l.drop 7).takeWhile Char.isDigit).length
      if idx < 9 then some idx
      else if idx % 2 = 0 then some 7
      else some 8
    else some 8

/-- `_parse_isoformat_date`: calendar dates `YYYY-?MM-?DD` and ISO week
dates `YYYY-?Www-?D`.  The function is only called on strings of length
7, 8 or 10 (asserted in the Python fallback, a ValueError in the C
implementation); the length guard lives in `pyFromisoformat`. -/
def parseIsoDate (d : List Char) : Option (Nat × Nat × Nat) :=
  match pyIntDec (d.take 4) with
  | none => none
  | some year =>
    let hasSep := d.getD 4 ' ' = '-'
    let pos0 := if hasSep then 5 else 4
    if d.getD pos0 ' ' = 'W' then
      let pos1 := pos0 + 1
      match pyIntDec ((d.drop pos1).take 2) with
      | none => none
      | some weekno =>
        let pos2 := pos1 + 2
        if d.length > pos2 then
          if (d.getD pos2 ' ' = '-') ≠ hasSep then none
          else
            let pos3 := if hasSep then pos2 + 1 else pos2
            match pyIntDec ((d.drop pos3).take 1) with
            | none => none
            | some dayno => isoweekToGregorian year weekno dayno
        else isoweekToGregorian year weekno 1
    else
      match pyIntDec ((d.drop pos0).take 2) with
      | none => none
      | some month =>
        let pos1 := pos0 + 2
        if (d.getD pos1 ' ' = '-') ≠ hasSep then none
        else
          let pos2 := if hasSep then pos1 + 1 else pos1
          match pyIntDec ((d.drop pos2).take 2) with
          | some day => some (year, month, day)
          | none => none

structure TimeComps where
  hour : Nat
  minute : Nat
  second : Nat
  micros : Nat
deriving Repr, DecidableEq

/-- Exactly two ASCII digits (`parse_digits(p, var, 2)` of the C
accelerator); returns the value and the remaining characters. -/
def parse2dig (t : List Char) : Option (Nat × List Char) :=
  match t with
  | a :: b :: rest =>
    if a.isDigit && b.isDigit then some ((a.toNat - 48) * 10 + (b.toNat - 48), rest)
    else none
  | _ => none

/-- The fractional part after a `.` or `,`: at least one digit, the first
min(6, length) characters are parsed (all must be digits) and scaled to
microseconds, any further characters must be digits and are discarded. -/
def parseFracC (frac : List Char) : Option Nat :=
  let toParse := min 6 frac.length
  match pyIntDec (frac.take toParse) with
  | none => none
  | some us0 =>
    let us := if toParse < 6 then us0 * 10 ^ (6 - toParse) else us0
    if (frac.drop toParse).all Char.isDigit then some us else none

/-- `parse_hh_mm_ss_ff` of the C `_datetime` accelerator (the
implementation CPython actually runs; it is more permissive than the
`Lib/datetime.py` fallback): components are pairs of digits, the colon
separator style is fixed by the character after the hour and must be used
consistently, and a fraction introduced by a dot or comma may follow the
hour, minute or second, ending the parse. -/
def parseHMSFF (t : List Char) : Option TimeComps :=
  match parse2dig t with
  | none => none
  | some (h, rest) =>
    match rest with
    | [] => some ⟨h, 0, 0, 0⟩
    | c :: cs =>
      if c = '.' ∨ c = ',' then (parseFracC cs).map (fun us => ⟨h, 0, 0, us⟩)
      else
        let hasSep := c = ':'
        let t1 := if hasSep then cs else rest
        match parse2dig t1 with
        | none => none
        | some (m, rest2) =>
          match rest2 with
          | [] => some ⟨h, m, 0, 0⟩
          | c2 :: cs2 =>
            if c2 = '.' ∨ c2 = ',' then (parseFracC cs2).map (fun us => ⟨h, m, 0, us⟩)
            else if c2 = ':' then
              if !hasSep then none
              else
                match parse2dig cs2 with
                | none => none
                | some (s, rest3) =>
                  match rest3 with
                  | [] => some ⟨h, m, s, 0⟩
                  | c3 :: cs3 =>
                    if c3 = '.' ∨ c3 = ',' then (parseFracC cs3).map (fun us => ⟨h, m, s, us⟩)
                    else none
            else if hasSep then none
            else
              match parse2dig rest2 with
              | none => none
              | some (s, rest3) =>
                match rest3 with
                | [] => some ⟨h, m, s, 0⟩
                | c3 :: cs3 =>
                  if c3 = '.' ∨ c3 = ',' then (parseFracC cs3).map (fun us => ⟨h, m, s, us⟩)
                  else none

/-- `parse_isoformat_time` of the C accelerator: the timezone starts at
the first of `Z`/`+`/`-`; a `Z` must be the final character; a signed
offset is itself an hh[:mm[:ss[.ffffff]]] group whose magnitude must stay
strictly below 24 hours (`timezone` constructor bound).  Only the clock
components are returned; the offset never reaches
`strftime("%Y-%m-%d")`. -/
def parseIsoTime (t : List Char) : Option TimeComps :=
  match t.findIdx? (fun c => c = 'Z' || c = '+' || c = '-') with
  | none => parseHMSFF t
  | some i =>
    match parseHMSFF (t.take i) with
    | none => none
    | some tc =>
      if t.getD i ' ' = 'Z' then
        if i + 1 = t.length then some tc else none
      else
        match parseHMSFF (t.drop (i + 1)) with
        | none => none
        | some tz =>
          let totalUs := (tz.hour * 3600 + tz.minute * 60 + tz.second) * 1000000 + tz.micros
          if totalUs < 24 * 3600 * 1000000 then some tc else none

/-- `datetime.fromisoformat` (CPython 3.11.6, C accelerator): returns the
(year, month, day) of the parsed datetime, `none` on ValueError.  When a
separator character is present the time part must be non-empty and parse;
the final conjunction models `_check_date_fields` / `_check_time_fields`
of the datetime constructor. -/
def pyFromisoformat (s : String) : Option (Nat × Nat × Nat) :=
  let l := s.toList
  if l.length < 7 then none
  else match findIsoSep l with
  | none => none
  | some sep =>
    let dstr := l.take sep
    let tstr := l.drop (sep + 1)
    if ¬(dstr.length = 7 ∨ dstr.length = 8 ∨ dstr.length = 10) then none
    else match parseIsoDate dstr with
    | none => none
    | some ymd =>
      let timeOk : Option TimeComps :=
        if l.length > sep then parseIsoTime tstr else some ⟨0, 0, 0, 0⟩
      match timeOk with
      | none => none
      | some tc =>
        if 1 ≤ ymd.1 ∧ ymd.1 ≤ 9999 ∧ 1 ≤ ymd.2.1 ∧ ymd.2.1 ≤ 12
            ∧ 1 ≤ ymd.2.2 ∧ ymd.2.2 ≤ pyDaysInMonth ymd.1 ymd.2.1
            ∧ tc.hour ≤ 23 ∧ tc.minute ≤ 59 ∧ tc.second ≤ 59 ∧ tc.micros ≤ 999999
        then some ymd else none

/-! ### strptime with the fixed format "%d %b %Y" -/

def monthAbbrevs : List (List Char) :=
  (["jan", "feb", "mar", "apr", "may", "jun", "jul", "aug", "sep", "oct",
    "nov", "dec"]).map String.toList

/-- The character class `\s` of the compiled strptime regex (ASCII part;
exotic Unicode whitespace is not modelled). -/
def isPySpaceRe (c : Char) : Bool :=
  c = ' ' || c = '\t' || c = '\n' || c = '\r' || c.toNat = 11 || c.toNat = 12

/-- `datetime.strptime(s, "%d %b %Y")`: the compiled pattern is
`(3[0-1]|[1-2]\d|0[1-9]|[1-9]| [1-9])\s+(jan|...|dec)\s+(\d\d\d\d)`
matched case-insensitively against the whole string, followed by the
datetime constructor's field validation.  (Note the space-plus-digit
alternative for the day.) -/
def strptimeDayBY (s : String) : Option (Nat × Nat × Nat) :=
  let l := s.toList
  let daySpec : Option (Nat × Nat) :=
    match l with
    | ' ' :: d :: _ => if '1' ≤ d && d ≤ '9' then some (d.toNat - 48, 2) else none
    | _ =>
      let ds := l.takeWhile Char.isDigit
      let ok : Bool :=
        match ds with
        | [a] => '1' ≤ a
        | [a, b] =>
          (a = '3' && (b = '0' || b = '1')) || ((a = '1' || a = '2') && b.isDigit)
            || (a = '0' && '1' ≤ b)
        | _ => false
      if ok then some (digitsToNat ds, ds.length) else none
  match daySpec with
  | none => none
  | some (day, dayLen) =>
    let r1 := l.drop dayLen
    let ws1 := r1.takeWhile isPySpaceRe
    if ws1 = [] then none
    else
      let r2 := r1.drop ws1.length
      let mon := (r2.take 3).map Char.toLower
      match monthAbbrevs.findIdx? (fun a => a == mon) with
      | none => none
      | some mi =>
        let month := mi + 1
        let r3 := r2.drop 3
        let ws2 := r3.takeWhile isPySpaceRe
        if ws2 = [] then none
        else
          let r4 := r3.drop ws2.length
          if r4.length = 4 ∧ r4.all Char.isDigit then
            let year := digitsToNat r4
            if 1 ≤ year ∧ 1 ≤ day ∧ day ≤ pyDaysInMonth year month then some (year, month, day)
            else none
          else none

def padNat (w n : Nat) : List Char :=
  let d := Nat.toDigits 10 n
  List.replicate (w - d.length) '0' ++ d

/-- `strftime("%Y-%m-%d")` as glibc renders it (`%m`/`%d` zero-padded to
two digits; `%Y` unpadded — `datetime(150, 1, 5)` prints `150-01-05`). -/
def strftimeYmd (y m d : Nat) : String :=
  String.mk (Nat.toDigits 10 y ++ '-' :: padNat 2 m ++ '-' :: padNat 2 d)

/-! ## extract_publication_date (src/inseadnews.py, lines 45-93)

The network fetch of the article page is abstracted as an `ArticlePage`
value describing what the page exposes; the parsing priority logic is
transcribed from the source.  `logging` calls are no-ops here. -/

structure ArticlePage where
  /-- scraper.get returned without raising (a transport exception lands
  in the outer `except` and yields None). -/
  fetchOk : Bool
  /-- res.status_code. -/
  status : Nat
  /-- soup.find("meta", property="article:published_time"): `none` = tag
  absent, `some none` = tag present but no `content` attribute,
  `some (some c)` = tag present with content `c`. -/
  metaPublishedTime : Option (Option String)
  /-- Stripped text of soup.select_one("a.link.link--date"), when that
  tag exists. -/
  dateLinkText : Option String

/-- `date_iso_str.replace('Z', '+00:00')`. -/
def pyReplaceZ (s : String) : String :=
  String.mk (s.toList.foldr
    (fun c acc => if c = 'Z' then '+' :: '0' :: '0' :: ':' :: '0' :: '0' :: acc else c :: acc) [])

/-- extract_publication_date: meta tag first (its parse failure falls
through), then the `a.link.link--date` text, else no date. -/
def extract_publication_date (page : ArticlePage) : Option String :=
  if !page.fetchOk then none
  else if page.status ≠ 200 then none
  else
    let fromMeta : Option String :=
      match page.metaPublishedTime with
      | some (some c) =>
        match pyFromisoformat (pyReplaceZ c) with
        | some ymd => some (strftimeYmd ymd.1 ymd.2.1 ymd.2.2)
        | none => none
      | _ => none
    match fromMeta with
    | some d => some d
    | none =>
      match page.dateLinkText with
      | some txt =>
        match strptimeDayBY txt with
        | some ymd => some (strftimeYmd ymd.1 ymd.2.1 ymd.2.2)
        | none => none
      | none => none

/-! ## The Deduplicating Sink: process_and_add_articles
(src/inseadnews.py, lines 95-158)

A BeautifulSoup card element is abstracted by the results of the selector
queries the code performs on it; the Airtable client and the network call
inside extract_publication_date are abstracted by oracles in `ScrapeEnv`
(`createOk r = false` models `table.create` raising, i.e. the store
rejecting the write).  All remaining logic — the link fallback chain, URL
join/normalization (which can genuinely raise, via urlparse), dedup
check, image-source fallbacks, record construction, counter updates, and
the per-card `except` that swallows any exception — is transcribed from
the source. -/

def BASE_URL : String := "https://www.insead.edu"

structure ImgTag where
  /-- The `src` attribute, when present. -/
  src : Option String
  /-- The `data-src` attribute, when present. -/
  dataSrc : Option String
deriving Repr, DecidableEq

structure FigureEl where
  /-- `image_figure.select_one("picture img")`. -/
  pictureImg : Option ImgTag
  /-- `image_figure.select_one("img")`. -/
  img : Option ImgTag
deriving Repr, DecidableEq

structure LinkTag where
  /-- The `href` attribute (the selectors all require its presence). -/
  href : String
  /-- `link_tag.get_text(strip=True)`. -/
  text : String
deriving Repr, DecidableEq

structure Card where
  /-- `card.select_one("h2 a[href], h3 a[href], h4 a[href]")`. -/
  headingLink : Option LinkTag
  /-- `card.select_one(".card-object__body a[href], .card-object__heading a[href]")`. -/
  bodyLink : Option LinkTag
  /-- `card.find("a", href=True)`. -/
  anyLink : Option LinkTag
  /-- `card.select_one(".card-object__figure")`. -/
  figure : Option FigureEl
deriving Repr, DecidableEq

/-- The three-step link fallback chain (lines 105-113). -/
def selectLink (card : Card) : Option LinkTag :=
  match card.headingLink with
  | some l => some l
  | none =>
    match card.bodyLink with
    | some l => some l
    | none => card.anyLink

/-- `normalize_url(urljoin(BASE_URL, link_tag['href']))` (line 119). -/
def articleUrlOfHref (href : String) : Except Unit String :=
  match urljoinPy BASE_URL href with
  | .error e => .error e
  | .ok j => normalize_url j

/-- Image extraction (lines 128-139): figure, `picture img` before plain
`img`, `src` before `data-src` (Python `or`, so an empty `src` falls
through), joined against the base URL when truthy. -/
def imageUrlOfCard (card : Card) : Except Unit String :=
  match card.figure with
  | none => .ok ""
  | some fig =>
    let imageTag :=
      match fig.pictureImg with
      | some t => some t
      | none => fig.img
    match imageTag with
    | none => .ok ""
    | some tag =>
      let imageSrc : Option String :=
        match tag.src with
        | some s => if pyTruthy s then some s else tag.dataSrc
        | none => tag.dataSrc
      match imageSrc with
      | some s => if pyTruthy s then urljoinPy BASE_URL s else .ok ""
      | none => .ok ""

/-- The field map handed to `table.create` (lines 144-150); the
publication-date key is included only when `pub_date` is truthy. -/
structure AirRecord where
  title : String
  imageUrl : String
  articleUrl : String
  pubDate : Option String
deriving Repr, DecidableEq

def mkRecord (title imageUrl articleUrl : String) (pubDate : Option String) : AirRecord :=
  ⟨title, imageUrl, articleUrl,
    match pubDate with
    | some d => if pyTruthy d then some d else none
    | none => none⟩

/-- External collaborators of the sink. -/
structure ScrapeEnv where
  /-- Whether `table.create(record)` succeeds (false models the store
  rejecting the write, i.e. the call raising). -/
  createOk : AirRecord → Bool
  /-- The result of `extract_publication_date(url)` — the whole
  fetch-and-parse of the article page (which never raises: it catches all
  its exceptions and returns None).  Deterministic per URL within a
  run. -/
  dateOf : String → Option String

/-- Python `set.add` on the list-modelled set. -/
def setAdd (urls : List String) (u : String) : List String :=
  if u ∈ urls then urls else u :: urls

structure SinkState where
  /-- The `existing_urls` set. -/
  existing_urls : List String
  /-- Records successfully written to the store, in order. -/
  created : List AirRecord
  /-- `added_count_ref[0]`. -/
  added : Nat
  /-- `skipped_duplicates_count_ref[0]`. -/
  skipped : Nat
deriving Repr, DecidableEq

/-- What one loop iteration did: no link found (silent skip), duplicate
skipped, article added, or an exception caught by the per-card
`except`. -/
inductive CardOutcome
  | noLink
  | skippedDup
  | added
  | failed
deriving Repr, DecidableEq

/-- One iteration of the card loop (lines 101-158).  The `.failed`
branches are exactly the places the Python body can raise — the
join/normalize of the article URL, the join of the image URL, and
`table.create` — all landing in the per-card `except`, which leaves every
piece of state untouched and continues. -/
def processCardO (env : ScrapeEnv) (st : SinkState) (card : Card) : SinkState × CardOutcome :=
  match selectLink card with
  | none => (st, .noLink)
  | some link =>
    match articleUrlOfHref link.href with
    | .error _ => (st, .failed)
    | .ok u =>
      if u ∈ st.existing_urls then
        ({ st with skipped := st.skipped + 1 }, .skippedDup)
      else
        match imageUrlOfCard card with
        | .error _ => (st, .failed)
        | .ok imageUrl =>
          let record := mkRecord link.text imageUrl u (env.dateOf u)
          if env.createOk record then
            ({ st with
                existing_urls := setAdd st.existing_urls u,
                created := st.created ++ [record],
                added := st.added + 1 }, .added)
          else (st, .failed)

def processCard (env : ScrapeEnv) (st : SinkState) (card : Card) : SinkState :=
  (processCardO env st card).1

/-- process_and_add_articles: fold the card loop over the list. -/
def process_and_add_articles (env : ScrapeEnv) (cards : List Card) (st : SinkState) : SinkState :=
  cards.foldl (processCard env) st

/-! ## AJAX response handling (src/inseadnews.py, lines 354-375)

One update-command of the drupal_ajax response, abstracted by the dict
accesses the code performs: `command.get("command")`,
`command.get("selector")`, and the `"data"` entry. -/

structure AjaxCommand where
  command : Option String
  selector : Option String
  data : Option String
deriving Repr, DecidableEq

/-- Python `str.replace('_', '-')`. -/
def replaceUnderscores (s : String) : String :=
  String.mk (s.toList.map (fun c => if c = '_' then '-' else c))

/-- `.js-view-dom-id-{view_dom_id}`. -/
def selDomId (viewDomId : String) : String :=
  ".js-view-dom-id-" ++ viewDomId

/-- `.block-views-block{view_name.replace('_','-')}-{view_display_id.replace('_','-')} .view-content`. -/
def selBlockViews (viewName viewDisplayId : String) : String :=
  ".block-views-block" ++ replaceUnderscores viewName ++ "-"
    ++ replaceUnderscores viewDisplayId ++ " .view-content"

/-- The command loop (lines 356-375): iterate the response commands in
order; for an insert command carrying data, test the four selectors and
break with its payload on the first hit; otherwise keep scanning.  The
initial `new_cards_html = ""` survives when nothing matches. -/
def findNewCardsHtml (viewDomId viewName viewDisplayId : String) :
    List AjaxCommand → String
  | [] => ""
  | c :: rest =>
    if c.command = some "insert" ∧ c.data.isSome then
      if c.selector = some (selDomId viewDomId) then c.data.getD ""
      else if c.selector = some (selBlockViews viewName viewDisplayId) then c.data.getD ""
      else if c.selector = some ".view-content" then c.data.getD ""
      else if c.selector = some "#block-insead-content" then c.data.getD ""
      else findNewCardsHtml viewDomId viewName viewDisplayId rest
    else findNewCardsHtml viewDomId viewName viewDisplayId rest

/-- An insert-with-data command whose selector is one of the four
acceptable ones. -/
def acceptableCmd (viewDomId viewName viewDisplayId : String) (c : AjaxCommand) : Bool :=
  (c.command == some "insert") && c.data.isSome &&
    ((c.selector == some (selDomId viewDomId))
      || (c.selector == some (selBlockViews viewName viewDisplayId))
      || (c.selector == some ".view-content")
      || (c.selector == some "#block-insead-content"))

/-- Modelled from the spec's words (for comparison with the code's
`findNewCardsHtml`): "find the first insert-content command whose target
selector matches one of several acceptable selectors (in priority order:
exact dynamic anchor id, dynamic view/display-id-derived selector, a
generic content-region selector, a generic block selector)" — i.e. pick
by selector priority across the whole response, not by response
position. -/
def specPrioritySelection (viewDomId viewName viewDisplayId : String)
    (cmds : List AjaxCommand) : String :=
  let isIns := fun (c : AjaxCommand) => (c.command == some "insert") && c.data.isSome
  match cmds.find? (fun c => isIns c && (c.selector == some (selDomId viewDomId))) with
  | some c => c.data.getD ""
  | none =>
    match cmds.find? (fun c => isIns c && (c.selector == some (selBlockViews viewName viewDisplayId))) with
    | some c => c.data.getD ""
    | none =>
      match cmds.find? (fun c => isIns c && (c.selector == some ".view-content")) with
      | some c => c.data.getD ""
      | none =>
        match cmds.find? (fun c => isIns c && (c.selector == some "#block-insead-content")) with
        | some c => c.data.getD ""
        | none => ""

/-! ## Pagination-token resolution (src/inseadnews.py, lines 188-289)

The Drupal.settings blob, when found and JSON-decoded, is abstracted as a
`DrupalSettings` value describing the dict accesses the code performs
(values assumed to follow the Drupal schema: strings at the leaves, a
dict under "ajax").  When no parseable blob exists the code falls back to
two regex searches over the raw page text, which are modelled exactly.
Logging calls are no-ops. -/

/-- Initial / hardcoded values (lines 192-194). -/
def defaultViewDomId : String :=
  "2bcf87ffae10d903e48004546039697aebd0e6dc08d71cbbb4b8e009c1559405"

def defaultViewName : String := "newsroom_archive"

def defaultViewDisplayId : String := "news_room_archive_page"

/-- The `ajax` sub-dict of one entry of the `views` settings. -/
structure AjaxViewData where
  view_path : Option String
  view_name : Option String
  view_display_id : Option String
  dom_id : Option String
deriving Repr, DecidableEq

structure DrupalSettings where
  /-- `drupal_settings_json.get('ajaxPageState', {}).get('libraries', '')`
  (absent key modelled as `none`). -/
  librariesParam : Option String
  /-- Insertion-ordered items of the `views` dict; `none` marks an entry
  that is not a dict with an `ajax` key (skipped by the loop). -/
  views : List (String × Option AjaxViewData)
deriving Repr, DecidableEq

structure TokenState where
  ajax_libraries_param : String
  view_dom_id : String
  view_name : String
  view_display_id : String
deriving Repr, DecidableEq

/-- The view-matching loop (lines 242-256): first entry whose ajax data
has `view_path == "/newsroom/news"` and both `view_name` and
`view_display_id` present (only then does the loop break). -/
def findMatchingView : List (String × Option AjaxViewData) → Option AjaxViewData
  | [] => none
  | (_, some avd) :: rest =>
    if avd.view_path == some "/newsroom/news" && avd.view_name.isSome
        && avd.view_display_id.isSome then some avd
    else findMatchingView rest
  | (_, none) :: rest => findMatchingView rest

def hexLowerChar (c : Char) : Bool := c.isDigit || ('a' ≤ c && c ≤ 'f')

/-- Anchored attempt of `re.search(r"'view_dom_id':\s*'([a-f0-9]+)'", ...)`
at the current position. -/
def matchDomIdAt (l : List Char) : Option String :=
  let lit := "\x27view_dom_id\x27:".toList
  if l.take lit.length = lit then
    let r := (l.drop lit.length).dropWhile isPySpaceRe
    match r with
    | '\x27' :: rest =>
      let hex := rest.takeWhile hexLowerChar
      if hex ≠ [] ∧ (rest.drop hex.length).take 1 = ['\x27'] then some (String.mk hex)
      else none
    | _ => none
  else none

/-- `re.search` scans left to right for the first matching position. -/
def searchDomId : List Char → Option String
  | [] => none
  | c :: t =>
    match matchDomIdAt (c :: t) with
    | some s => some s
    | none => searchDomId t

/-- Anchored attempt of
`re.search(r'"ajaxPageState":{"libraries":"(.*?)"', ...)`: the lazy group
runs up to the next quote and `.` does not cross a newline. -/
def matchLibsAt (l : List Char) : Option String :=
  let lit := "\"ajaxPageState\":\x7b\"libraries\":\"".toList
  if l.take lit.length = lit then
    let rest := l.drop lit.length
    let grp := rest.takeWhile (fun c => !(c = '"') && !(c = '\n'))
    if (rest.drop grp.length).take 1 = ['"'] then some (String.mk grp) else none
  else none

def searchLibs : List Char → Option String
  | [] => none
  | c :: t =>
    match matchLibsAt (c :: t) with
    | some s => some s
    | none => searchLibs t

/-- Lines 188-289 after the initial page fetch: resolve the pagination
tokens from the parsed settings blob when one exists, otherwise from the
regex fallbacks over the raw page text, falling back to the hardcoded
defaults for whatever could not be extracted.  Total: resolution failure
never raises, so it never aborts the session. -/
def resolveTokens (settings : Option DrupalSettings) (html : String) : TokenState :=
  match settings with
  | some ds =>
    let libs := ds.librariesParam.getD ""
    match findMatchingView ds.views with
    | some avd =>
      { ajax_libraries_param := libs,
        view_dom_id := avd.dom_id.getD defaultViewDomId,
        view_name := avd.view_name.getD defaultViewName,
        view_display_id := avd.view_display_id.getD defaultViewDisplayId }
    | none =>
      { ajax_libraries_param := libs,
        view_dom_id := defaultViewDomId,
        view_name := defaultViewName,
        view_display_id := defaultViewDisplayId }
  | none =>
    { ajax_libraries_param := (searchLibs html.toList).getD "",
      view_dom_id := (searchDomId html.toList).getD defaultViewDomId,
      view_name := defaultViewName,
      view_display_id := defaultViewDisplayId }

/-! ## Rebuilding existing_urls from the record store
(src/inseadnews.py, lines 173-186)

One Airtable record is abstracted by the two field lookups the code
performs.  A normalization error (urlparse can raise) escapes the loop
into the outer try/except, which aborts the run — hence `Except`. -/

structure AirFields where
  /-- `record.get("fields", {}).get(FIELD_ARTICLE_URL)`. -/
  articleUrl : Option String
  /-- `record.get("fields", {}).get(FIELD_TITLE)`. -/
  title : Option String
deriving Repr, DecidableEq

def optTruthy (o : Option String) : Bool :=
  match o with
  | some s => pyTruthy s
  | none => false

/-- One iteration of the record loop: a truthy article-URL field is
normalized into the set; otherwise a truthy title field is normalized
into the set (the code's fallback); otherwise the record contributes
nothing. -/
def loadStep (acc : List String) (r : AirFields) : Except Unit (List String) :=
  if optTruthy r.articleUrl then
    match normalize_url (r.articleUrl.getD "") with
    | .error e => .error e
    | .ok n => .ok (setAdd acc n)
  else if optTruthy r.title then
    match normalize_url (r.title.getD "") with
    | .error e => .error e
    | .ok n => .ok (setAdd acc n)
  else .ok acc

/-- The whole rebuild loop over `table.all()`. -/
def loadExistingUrls : List AirFields → List String → Except Unit (List String)
  | [], acc => .ok acc
  | r :: rest, acc =>
    match loadStep acc r with
    | .error e => .error e
    | .ok acc2 => loadExistingUrls rest acc2

/-! ## Well-formedness predicates for rendered URLs

The corrected C7/C8 statements quantify over URLs assembled from
components; these predicates say which component values the rendering
covers (printable ASCII, the component separators excluded, a lowercase
alphabetic scheme, a non-empty bracket-free host, a path that is empty
or absolute). -/

abbrev GoodScheme (scheme : List Char) : Prop :=
  scheme ≠ [] ∧ (scheme.headD ' ').isAlpha = true ∧ scheme.map Char.toLower = scheme ∧
    ∀ c ∈ scheme, schemeChar c = true ∧ 32 < c.toNat ∧ c.toNat < 127

abbrev GoodHost (host : List Char) : Prop :=
  host ≠ [] ∧ ∀ c ∈ host, 32 < c.toNat ∧ c.toNat < 127 ∧
    c ≠ '/' ∧ c ≠ '?' ∧ c ≠ '#' ∧ c ≠ '[' ∧ c ≠ ']'

abbrev GoodPath (path : List Char) : Prop :=
  (path = [] ∨ path.headD ' ' = '/') ∧
    ∀ c ∈ path, 32 < c.toNat ∧ c.toNat < 127 ∧ c ≠ '?' ∧ c ≠ '#' ∧ c ≠ ';'

abbrev GoodQuery (query : List Char) : Prop :=
  ∀ c ∈ query, 32 < c.toNat ∧ c.toNat < 127 ∧ c ≠ '#'

abbrev GoodFrag (frag : List Char) : Prop :=
  ∀ c ∈ frag, 32 < c.toNat ∧ c.toNat < 127

/-! ## Theorems -/

-- C1
/-- Claim C1 (confirmed): for every card whose normalized article URL is already a member of `existing_urls`, one iteration of the card loop returns the duplicate-skip outcome, increments only the skipped counter, writes no record to the store, and leaves the URL set unchanged. -/
theorem claim1_dup_skipped (env : ScrapeEnv) (st : SinkState) (card : Card)
    (link : LinkTag) (u : String)
    (hl : selectLink card = some link)
    (hu : articleUrlOfHref link.href = .ok u)
    (hmem : u ∈ st.existing_urls) :
    processCardO env st card = ({ st with skipped := st.skipped + 1 }, .skippedDup) := by
  simp [processCardO, hl, hu, hmem]

theorem claim1_witness :
    processCardO ⟨fun _ => true, fun _ => none⟩
        ⟨["https://www.insead.edu/newsroom/news/a"], [], 0, 0⟩
        ⟨some ⟨"/newsroom/news/a", "T"⟩, none, none, none⟩
      = (⟨["https://www.insead.edu/newsroom/news/a"], [], 0, 1⟩, .skippedDup) :=
  claim1_dup_skipped _ _ _ ⟨"/newsroom/news/a", "T"⟩ "https://www.insead.edu/newsroom/news/a"
    rfl rfl (by simp)

-- C2
/-- Claim C2 (confirmed): offering the same new card twice in sequence yields the added outcome exactly once — the first successful offer inserts the normalized URL into `existing_urls`, so the second offer of the same card returns the duplicate-skip outcome and changes only the skipped counter. -/
theorem claim2_second_offer_skipped (env : ScrapeEnv) (st : SinkState) (card : Card)
    (link : LinkTag) (u imageUrl : String)
    (hl : selectLink card = some link)
    (hu : articleUrlOfHref link.href = .ok u)
    (hnew : u ∉ st.existing_urls)
    (himg : imageUrlOfCard card = .ok imageUrl)
    (hcr : env.createOk (mkRecord link.text imageUrl u (env.dateOf u)) = true) :
    processCardO env st card =
      ({ st with existing_urls := u :: st.existing_urls,
                 created := st.created ++ [mkRecord link.text imageUrl u (env.dateOf u)],
                 added := st.added + 1 }, .added)
      ∧ processCardO env
          { st with existing_urls := u :: st.existing_urls,
                    created := st.created ++ [mkRecord link.text imageUrl u (env.dateOf u)],
                    added := st.added + 1 } card
        = ({ st with existing_urls := u :: st.existing_urls,
                     created := st.created ++ [mkRecord link.text imageUrl u (env.dateOf u)],
                     added := st.added + 1,
                     skipped := st.skipped + 1 }, .skippedDup) := by
  constructor
  · simp [processCardO, hl, hu, hnew, himg, hcr, setAdd]
  · simp [processCardO, hl, hu]

-- C3 helper
theorem processCard_of_failed (env : ScrapeEnv) (st : SinkState) (card : Card) :
    (processCardO env st card).2 = .failed → processCard env st card = st := by
  unfold processCard processCardO
  split
  next => simp
  next link hsel =>
    split
    next => simp
    next u hu =>
      split
      next => simp
      next hmem =>
        split
        next => simp
        next img himg =>
          intro h
          by_cases hc : env.createOk (mkRecord link.text img u (env.dateOf u)) = true
          · simp [hc] at h
          · simp [hc]

/-- Claim C3 (confirmed): a card whose processing fails (the URL join or normalize raises, the image join raises, or the store rejects the write) contributes to neither the added nor the skipped count, and the exception does not abort the batch: folding the card list with the failing card equals folding the list without it. -/
theorem claim3_failed_card (env : ScrapeEnv) (st : SinkState)
    (pre post : List Card) (card : Card)
    (hf : (processCardO env (process_and_add_articles env pre st) card).2 = .failed) :
    process_and_add_articles env (pre ++ card :: post) st
      = process_and_add_articles env (pre ++ post) st := by
  unfold process_and_add_articles at *
  rw [List.foldl_append, List.foldl_append, List.foldl_cons,
    processCard_of_failed env _ card hf]

theorem claim3_witness :
    process_and_add_articles ⟨fun r => !(r.title == "BAD"), fun _ => none⟩
        ([⟨some ⟨"/newsroom/news/a", "A"⟩, none, none, none⟩]
          ++ (⟨some ⟨"/newsroom/news/b", "BAD"⟩, none, none, none⟩ : Card)
          :: [⟨some ⟨"/newsroom/news/c", "C"⟩, none, none, none⟩])
        ⟨[], [], 0, 0⟩
      = process_and_add_articles ⟨fun r => !(r.title == "BAD"), fun _ => none⟩
        ([⟨some ⟨"/newsroom/news/a", "A"⟩, none, none, none⟩]
          ++ [⟨some ⟨"/newsroom/news/c", "C"⟩, none, none, none⟩])
        ⟨[], [], 0, 0⟩ :=
  claim3_failed_card _ _ _ _ _ (by decide)

-- C4 counterexample
/-- Claim C4 (counterexample): when an acceptable generic-selector insert command appears before the exact dom-id insert command in the response, the code takes the payload of the generic one (response-sequence order), while a selection in the spec priority order would take the dom-id one. -/
theorem claim4_counterexample :
    findNewCardsHtml "D" "newsroom_archive" "news_room_archive_page"
        [⟨some "insert", some ".view-content", some "A"⟩,
         ⟨some "insert", some (selDomId "D"), some "B"⟩] = "A"
      ∧ specPrioritySelection "D" "newsroom_archive" "news_room_archive_page"
        [⟨some "insert", some ".view-content", some "A"⟩,
         ⟨some "insert", some (selDomId "D"), some "B"⟩] = "B"
      ∧ ("A" : String) ≠ "B" := by
  refine ⟨by decide, by decide, by decide⟩

-- C4 amended
/-- Claim C4 (corrected): the HTML fragment selected for parsing is the payload of the first insert command in response-sequence order whose selector is one of the four acceptable selectors — `List.find?` over the commands — not the first in selector-priority order. -/
theorem claim4_first_match_in_order (viewDomId viewName viewDisplayId : String)
    (cmds : List AjaxCommand) :
    findNewCardsHtml viewDomId viewName viewDisplayId cmds
      = (match cmds.find? (acceptableCmd viewDomId viewName viewDisplayId) with
         | some c => c.data.getD ""
         | none => "") := by
  induction cmds with
  | nil => rfl
  | cons c rest ih =>
    rw [findNewCardsHtml, List.find?]
    by_cases h1 : c.command = some "insert" ∧ c.data.isSome
    · have e0 : (c.command == some "insert") = true := beq_iff_eq.mpr h1.1
      by_cases h2 : c.selector = some (selDomId viewDomId)
      · have ht : acceptableCmd viewDomId viewName viewDisplayId c = true := by
          simp [acceptableCmd, e0, h1.2, beq_iff_eq.mpr h2]
        rw [if_pos h1, if_pos h2, ht]
      · have e2 : (c.selector == some (selDomId viewDomId)) = false := beq_eq_false_iff_ne.mpr h2
        by_cases h3 : c.selector = some (selBlockViews viewName viewDisplayId)
        · have ht : acceptableCmd viewDomId viewName viewDisplayId c = true := by
            simp [acceptableCmd, e0, h1.2, beq_iff_eq.mpr h3]
          rw [if_pos h1, if_neg h2, if_pos h3, ht]
        · have e3 : (c.selector == some (selBlockViews viewName viewDisplayId)) = false :=
            beq_eq_false_iff_ne.mpr h3
          by_cases h4 : c.selector = some ".view-content"
          · have ht : acceptableCmd viewDomId viewName viewDisplayId c = true := by
              simp [acceptableCmd, e0, h1.2, beq_iff_eq.mpr h4]
            rw [if_pos h1, if_neg h2, if_neg h3, if_pos h4, ht]
          · have e4 : (c.selector == some ".view-content") = false := beq_eq_false_iff_ne.mpr h4
            by_cases h5 : c.selector = some "#block-insead-content"
            · have ht : acceptableCmd viewDomId viewName viewDisplayId c = true := by
                simp [acceptableCmd, e0, h1.2, beq_iff_eq.mpr h5]
              rw [if_pos h1, if_neg h2, if_neg h3, if_neg h4, if_pos h5, ht]
            · have e5 : (c.selector == some "#block-insead-content") = false :=
                beq_eq_false_iff_ne.mpr h5
              have hf : acceptableCmd viewDomId viewName viewDisplayId c = false := by
                simp [acceptableCmd, e2, e3, e4, e5]
              rw [if_pos h1, if_neg h2, if_neg h3, if_neg h4, if_neg h5, hf, ih]
    · have hacc : acceptableCmd viewDomId viewName viewDisplayId c = false := by
        by_cases hA : c.command = some "insert"
        · have hB : c.data.isSome = false := by
            rcases Bool.eq_false_or_eq_true c.data.isSome with hb | hb
            · exact absurd ⟨hA, hb⟩ h1
            · exact hb
          simp [acceptableCmd, hB]
        · have e0 : (c.command == some "insert") = false := beq_eq_false_iff_ne.mpr hA
          simp [acceptableCmd, e0]
      rw [if_neg h1, hacc, ih]

-- C5
/-- Claim C5 (confirmed): when the embedded Drupal-settings parse yields nothing and both regex fallbacks fail to match, pagination-token resolution returns the hardcoded default view name, view display id and DOM anchor id; resolution is a total function, so the session cannot abort on account of the failure. -/
theorem claim5_hardcoded_fallback (html : String)
    (hdom : searchDomId html.toList = none)
    (hlibs : searchLibs html.toList = none) :
    resolveTokens none html =
      { ajax_libraries_param := "", view_dom_id := defaultViewDomId,
        view_name := defaultViewName, view_display_id := defaultViewDisplayId } := by
  have hdom2 : searchDomId html.data = none := hdom
  have hlibs2 : searchLibs html.data = none := hlibs
  simp [resolveTokens, hdom2, hlibs2]

theorem claim5_witness :
    resolveTokens none "<html><body>no tokens</body></html>" =
      { ajax_libraries_param := "", view_dom_id := defaultViewDomId,
        view_name := defaultViewName, view_display_id := defaultViewDisplayId } :=
  claim5_hardcoded_fallback _ (by decide) (by decide)

-- C6
/-- Claim C6 (confirmed): for an article page exposing both a parseable machine-readable published-time meta value and a parseable human-readable date label whose dates differ, date extraction returns the ISO date derived from the meta value and not the one derived from the label. -/
theorem claim6_meta_priority (page : ArticlePage) (c txt : String)
    (ymdM ymdL : Nat × Nat × Nat)
    (hfetch : page.fetchOk = true)
    (hstatus : page.status = 200)
    (hmeta : page.metaPublishedTime = some (some c))
    (hparse : pyFromisoformat (pyReplaceZ c) = some ymdM)
    (hlink : page.dateLinkText = some txt)
    (hlparse : strptimeDayBY txt = some ymdL)
    (hdiff : strftimeYmd ymdM.1 ymdM.2.1 ymdM.2.2 ≠ strftimeYmd ymdL.1 ymdL.2.1 ymdL.2.2) :
    extract_publication_date page = some (strftimeYmd ymdM.1 ymdM.2.1 ymdM.2.2)
      ∧ extract_publication_date page ≠ some (strftimeYmd ymdL.1 ymdL.2.1 ymdL.2.2) := by
  have h1 : extract_publication_date page = some (strftimeYmd ymdM.1 ymdM.2.1 ymdM.2.2) := by
    simp [extract_publication_date, hfetch, hstatus, hmeta, hparse]
  exact ⟨h1, by rw [h1]; simpa using hdiff⟩

theorem claim6_witness :
    extract_publication_date ⟨true, 200, some (some "2024-05-03T10:15:00Z"), some "04 May 2024"⟩
      = some "2024-05-03"
    ∧ extract_publication_date ⟨true, 200, some (some "2024-05-03T10:15:00Z"), some "04 May 2024"⟩
      ≠ some "2024-05-04" := by
  have h := claim6_meta_priority
    ⟨true, 200, some (some "2024-05-03T10:15:00Z"), some "04 May 2024"⟩
    "2024-05-03T10:15:00Z" "04 May 2024" (2024, 5, 3) (2024, 5, 4)
    rfl rfl rfl (by decide) rfl (by decide) (by decide)
  exact h

-- C10 helpers
theorem setAdd_mem_mono (acc : List String) (u x : String) (h : x ∈ acc) : x ∈ setAdd acc u := by
  unfold setAdd
  split
  · exact h
  · exact List.mem_cons_of_mem _ h

theorem loadStep_mono (acc acc2 : List String) (r : AirFields)
    (h : loadStep acc r = .ok acc2) (x : String) (hx : x ∈ acc) : x ∈ acc2 := by
  unfold loadStep at h
  split at h
  · split at h
    next => exact absurd h (by simp)
    next n hn => cases h; exact setAdd_mem_mono _ _ _ hx
  · split at h
    · split at h
      next => exact absurd h (by simp)
      next n hn => cases h; exact setAdd_mem_mono _ _ _ hx
    · cases h; exact hx

theorem loadExistingUrls_mono (records : List AirFields) (acc out : List String)
    (h : loadExistingUrls records acc = .ok out) (x : String) (hx : x ∈ acc) : x ∈ out := by
  induction records generalizing acc with
  | nil => simp [loadExistingUrls] at h; cases h; exact hx
  | cons r rest ih =>
    unfold loadExistingUrls at h
    split at h
    next => exact absurd h (by simp)
    next acc2 hstep => exact ih acc2 h (loadStep_mono acc acc2 r hstep x hx)

/-- Claim C10 (confirmed): when `existing_urls` is rebuilt from the record store, a record with no article-URL field but with a truthy title contributes the normalized form of its title (not a URL) to the set. -/
theorem claim10_title_contributes (records : List AirFields) (acc out : List String)
    (r : AirFields) (t n : String)
    (hr : r ∈ records)
    (hurl : r.articleUrl = none)
    (htitle : r.title = some t) (ht : t ≠ "")
    (hnorm : normalize_url t = .ok n)
    (hload : loadExistingUrls records acc = .ok out) :
    n ∈ out := by
  induction records generalizing acc with
  | nil => cases hr
  | cons a rest ih =>
    unfold loadExistingUrls at hload
    split at hload
    next => exact absurd hload (by simp)
    next acc2 hstep =>
      rcases List.mem_cons.mp hr with rfl | hmem
      · have hacc2 : acc2 = setAdd acc n := by
          unfold loadStep at hstep
          simp [hurl, htitle, optTruthy, pyTruthy, beq_iff_eq, ht, hnorm] at hstep
          exact hstep.symm
        subst hacc2
        refine loadExistingUrls_mono rest _ out hload n ?_
        unfold setAdd
        split
        next hin => exact hin
        next => exact List.mem_cons_self n _
      · exact ih acc2 hmem hload

theorem claim10_witness : ("://My Article" : String) ∈ ["://My Article"] := by
  have h := claim10_title_contributes [⟨none, some "My Article"⟩] [] ["://My Article"]
    ⟨none, some "My Article"⟩ "My Article" "://My Article"
    (by simp) rfl rfl (by decide) rfl rfl
  exact h

-- ===== C7/C8/C9 machinery =====

theorem splitAtChar_append_of_forall_ne (ch : Char) (a b : List Char)
    (ha : ∀ c ∈ a, c ≠ ch) : splitAtChar ch (a ++ ch :: b) = (a, some b) := by
  induction a with
  | nil => simp [splitAtChar]
  | cons x xs ih =>
    have hx : ¬(x = ch) := ha x (by simp)
    simp only [List.cons_append, splitAtChar, List.append_eq, if_neg hx]
    rw [ih (fun c hc => ha c (by simp [hc]))]

theorem splitAtChar_of_forall_ne (ch : Char) (a : List Char)
    (ha : ∀ c ∈ a, c ≠ ch) : splitAtChar ch a = (a, none) := by
  induction a with
  | nil => rfl
  | cons x xs ih =>
    have hx : ¬(x = ch) := ha x (by simp)
    simp only [splitAtChar, if_neg hx]
    rw [ih (fun c hc => ha c (by simp [hc]))]

theorem takeWhile_append_of_all (p : Char → Bool) (a b : List Char)
    (ha : ∀ c ∈ a, p c = true) : (a ++ b).takeWhile p = a ++ b.takeWhile p := by
  induction a with
  | nil => rfl
  | cons x xs ih =>
    have hx : p x = true := ha x (by simp)
    simp only [List.cons_append, List.takeWhile_cons, hx, if_true,
      ih (fun c hc => ha c (by simp [hc]))]

theorem dropWhile_append_of_all (p : Char → Bool) (a b : List Char)
    (ha : ∀ c ∈ a, p c = true) : (a ++ b).dropWhile p = b.dropWhile p := by
  induction a with
  | nil => rfl
  | cons x xs ih =>
    have hx : p x = true := ha x (by simp)
    simp only [List.cons_append, List.dropWhile_cons, hx, if_true,
      ih (fun c hc => ha c (by simp [hc]))]

theorem printable_char_classes {c : Char} (h1 : 32 < c.toNat) :
    isC0OrSpace c = false ∧ isRemovedURLByte c = false := by
  refine ⟨by simp [isC0OrSpace]; omega, ?_⟩
  have ht : ¬(c = '\t') := by intro hc; rw [hc] at h1; exact absurd h1 (by decide)
  have hr : ¬(c = '\r') := by intro hc; rw [hc] at h1; exact absurd h1 (by decide)
  have hn : ¬(c = '\n') := by intro hc; rw [hc] at h1; exact absurd h1 (by decide)
  simp [isRemovedURLByte, ht, hr, hn]

theorem preprocessURL_id (l : List Char) (h : ∀ c ∈ l, 32 < c.toNat) :
    preprocessURL l = l := by
  unfold preprocessURL
  have hd : l.dropWhile isC0OrSpace = l := by
    cases l with
    | nil => rfl
    | cons x xs =>
      rw [List.dropWhile_cons, if_neg]
      rw [(printable_char_classes (h x (by simp))).1]
      simp
  rw [hd, List.filter_eq_self.mpr]
  intro c hc
  rw [(printable_char_classes (h c hc)).2]
  rfl

theorem contains_eq_false_of_forall_ne (l : List Char) (x : Char)
    (h : ∀ c ∈ l, c ≠ x) : l.contains x = false := by
  induction l with
  | nil => rfl
  | cons c t ih =>
    rw [List.contains_cons]
    have : (x == c) = false := beq_eq_false_iff_ne.mpr (fun he => h c (by simp) he.symm)
    rw [this, ih (fun d hd => h d (by simp [hd]))]
    rfl

theorem schemeChar_ne_colon {c : Char} (h : schemeChar c = true) : c ≠ ':' := by
  intro hc; rw [hc] at h; exact absurd h (by decide)

theorem splitSchemePy_render (scheme rest : List Char) (hs : GoodScheme scheme) :
    splitSchemePy [] (scheme ++ ':' :: rest) = (scheme, rest) := by
  obtain ⟨hne, hhead, hlow, hall⟩ := hs
  cases scheme with
  | nil => exact absurd rfl hne
  | cons c pre =>
    have hsplit := splitAtChar_append_of_forall_ne ':' (c :: pre) rest
      (fun d hd => schemeChar_ne_colon (hall d hd).1)
    unfold splitSchemePy
    rw [hsplit]
    have hc : c.isAlpha = true := hhead
    have hallb : (c :: pre).all schemeChar = true :=
      List.all_eq_true.mpr (fun d hd => (hall d hd).1)
    simp only [hc, hallb, Bool.and_self, if_true]
    rw [hlow]

theorem splitNetlocPy_render (host rest2 : List Char)
    (hh : ∀ c ∈ host, netlocDelim c = false)
    (hr : rest2 = [] ∨ netlocDelim (rest2.headD ' ') = true) :
    splitNetlocPy ('/' :: '/' :: (host ++ rest2)) = (host, rest2) := by
  have hdef : splitNetlocPy ('/' :: '/' :: (host ++ rest2))
      = ((host ++ rest2).takeWhile (fun c => !(netlocDelim c)),
         (host ++ rest2).dropWhile (fun c => !(netlocDelim c))) := rfl
  have hta : (host ++ rest2).takeWhile (fun c => !(netlocDelim c)) = host ++ rest2.takeWhile (fun c => !(netlocDelim c)) :=
    takeWhile_append_of_all _ host rest2 (fun c hc => by rw [hh c hc]; rfl)
  have hda : (host ++ rest2).dropWhile (fun c => !(netlocDelim c)) = rest2.dropWhile (fun c => !(netlocDelim c)) :=
    dropWhile_append_of_all _ host rest2 (fun c hc => by rw [hh c hc]; rfl)
  have ht2 : rest2.takeWhile (fun c => !(netlocDelim c)) = [] := by
    rcases hr with rfl | hr
    · rfl
    · cases rest2 with
      | nil => rfl
      | cons x xs =>
        rw [List.takeWhile_cons, if_neg]
        simp only [List.headD_cons] at hr
        rw [hr]
        simp
  have hd2 : rest2.dropWhile (fun c => !(netlocDelim c)) = rest2 := by
    rcases hr with rfl | hr
    · rfl
    · cases rest2 with
      | nil => rfl
      | cons x xs =>
        rw [List.dropWhile_cons, if_neg]
        simp only [List.headD_cons] at hr
        rw [hr]
        simp
  rw [hdef, hta, hda, ht2, hd2, List.append_nil]

theorem urlsplitPy_render (scheme host path query fragment : List Char)
    (hs : GoodScheme scheme) (hh : GoodHost host) (hp : GoodPath path)
    (hq : GoodQuery query) (hf : GoodFrag fragment) :
    urlsplitPy [] (scheme ++ ':' :: '/' :: '/' :: (host ++ path ++ '?' :: query ++ '#' :: fragment))
      = .ok ⟨scheme, host, path, query, fragment⟩ := by
  have hall : ∀ c ∈ scheme ++ ':' :: '/' :: '/' :: (host ++ path ++ '?' :: query ++ '#' :: fragment),
      32 < c.toNat := by
    refine List.forall_mem_append.mpr ⟨fun c h => (hs.2.2.2 c h).2.1, ?_⟩
    refine List.forall_mem_cons.mpr ⟨by decide, ?_⟩
    refine List.forall_mem_cons.mpr ⟨by decide, ?_⟩
    refine List.forall_mem_cons.mpr ⟨by decide, ?_⟩
    refine List.forall_mem_append.mpr ⟨?_, ?_⟩
    · refine List.forall_mem_append.mpr ⟨?_, ?_⟩
      · exact List.forall_mem_append.mpr ⟨fun c h => (hh.2 c h).1, fun c h => (hp.2 c h).1⟩
      · exact List.forall_mem_cons.mpr ⟨by decide, fun c h => (hq c h).1⟩
    · exact List.forall_mem_cons.mpr ⟨by decide, fun c h => (hf c h).1⟩
  have hpre := preprocessURL_id _ hall
  have hscheme := splitSchemePy_render scheme
    ('/' :: '/' :: (host ++ path ++ '?' :: query ++ '#' :: fragment)) hs
  have hnet : splitNetlocPy ('/' :: '/' :: (host ++ (path ++ '?' :: query ++ '#' :: fragment)))
      = (host, path ++ '?' :: query ++ '#' :: fragment) := by
    apply splitNetlocPy_render
    · intro c hc
      have := hh.2 c hc
      simp [netlocDelim, this.2.2.1, this.2.2.2.1, this.2.2.2.2.1]
    · rcases hp.1 with hpe | hph
      · subst hpe
        right
        simp [netlocDelim]
      · cases path with
        | nil => exact absurd hph (by decide)
        | cons p0 pt =>
          right
          simp only [List.headD_cons] at hph
          subst hph
          simp [netlocDelim]
  have hc1 : host.contains '[' = false :=
    contains_eq_false_of_forall_ne _ _ (fun c hc => (hh.2 c hc).2.2.2.2.2.1)
  have hc2 : host.contains ']' = false :=
    contains_eq_false_of_forall_ne _ _ (fun c hc => (hh.2 c hc).2.2.2.2.2.2)
  have hhash : splitAtChar '#' (path ++ '?' :: query ++ '#' :: fragment)
      = (path ++ '?' :: query, some fragment) := by
    have hshape : path ++ '?' :: query ++ '#' :: fragment
        = (path ++ '?' :: query) ++ '#' :: fragment := by
      simp
    rw [hshape]
    apply splitAtChar_append_of_forall_ne
    refine List.forall_mem_append.mpr ⟨fun c h => (hp.2 c h).2.2.2.1, ?_⟩
    exact List.forall_mem_cons.mpr ⟨by decide, fun c h => (hq c h).2.2⟩
  have hquest : splitAtChar '?' (path ++ '?' :: query) = (path, some query) :=
    splitAtChar_append_of_forall_ne _ _ _ (fun c hc => (hp.2 c hc).2.2.1)
  have hassoc : host ++ path ++ '?' :: query ++ '#' :: fragment
      = host ++ (path ++ '?' :: query ++ '#' :: fragment) := by simp
  simp only [urlsplitPy]
  rw [hpre, hscheme, hassoc, hnet, hc1, hc2]
  simp only [Bool.false_and, Bool.and_false, Bool.not_false, Bool.false_or, Bool.or_self,
    Bool.false_eq_true, ite_false, if_false]
  rw [hhash, hquest]
  rfl

theorem urlsplitPy_render_short (scheme host path : List Char)
    (hs : GoodScheme scheme) (hh : GoodHost host) (hp : GoodPath path) :
    urlsplitPy [] (scheme ++ ':' :: '/' :: '/' :: (host ++ path))
      = .ok ⟨scheme, host, path, [], []⟩ := by
  have hall : ∀ c ∈ scheme ++ ':' :: '/' :: '/' :: (host ++ path), 32 < c.toNat := by
    refine List.forall_mem_append.mpr ⟨fun c h => (hs.2.2.2 c h).2.1, ?_⟩
    refine List.forall_mem_cons.mpr ⟨by decide, ?_⟩
    refine List.forall_mem_cons.mpr ⟨by decide, ?_⟩
    refine List.forall_mem_cons.mpr ⟨by decide, ?_⟩
    exact List.forall_mem_append.mpr ⟨fun c h => (hh.2 c h).1, fun c h => (hp.2 c h).1⟩
  have hpre := preprocessURL_id _ hall
  have hscheme := splitSchemePy_render scheme ('/' :: '/' :: (host ++ path)) hs
  have hnet : splitNetlocPy ('/' :: '/' :: (host ++ path)) = (host, path) := by
    apply splitNetlocPy_render
    · intro c hc
      have := hh.2 c hc
      simp [netlocDelim, this.2.2.1, this.2.2.2.1, this.2.2.2.2.1]
    · rcases hp.1 with hpe | hph
      · exact Or.inl hpe
      · cases path with
        | nil => exact Or.inl rfl
        | cons p0 pt =>
          right
          simp only [List.headD_cons] at hph
          subst hph
          simp [netlocDelim]
  have hc1 : host.contains '[' = false :=
    contains_eq_false_of_forall_ne _ _ (fun c hc => (hh.2 c hc).2.2.2.2.2.1)
  have hc2 : host.contains ']' = false :=
    contains_eq_false_of_forall_ne _ _ (fun c hc => (hh.2 c hc).2.2.2.2.2.2)
  have hhash : splitAtChar '#' path = (path, none) :=
    splitAtChar_of_forall_ne _ _ (fun c hc => (hp.2 c hc).2.2.2.1)
  have hquest : splitAtChar '?' path = (path, none) :=
    splitAtChar_of_forall_ne _ _ (fun c hc => (hp.2 c hc).2.2.1)
  simp only [urlsplitPy]
  rw [hpre, hscheme, hnet, hc1, hc2]
  simp only [Bool.false_and, Bool.and_false, Bool.not_false, Bool.false_or, Bool.or_self,
    Bool.false_eq_true, ite_false, if_false]
  rw [hhash, hquest]
  rfl

-- urlparse render lemmas
theorem urlparsePy_render (scheme host path query fragment : List Char)
    (hs : GoodScheme scheme) (hh : GoodHost host) (hp : GoodPath path)
    (hq : GoodQuery query) (hf : GoodFrag fragment) :
    urlparsePy [] (scheme ++ ':' :: '/' :: '/' :: (host ++ path ++ '?' :: query ++ '#' :: fragment))
      = .ok ⟨scheme, host, path, [], query, fragment⟩ := by
  have hsplit := urlsplitPy_render scheme host path query fragment hs hh hp hq hf
  have hsemi : path.contains ';' = false :=
    contains_eq_false_of_forall_ne _ _ (fun c hc => (hp.2 c hc).2.2.2.2)
  simp only [urlparsePy, hsplit, Except.map, hsemi, Bool.and_false, Bool.false_eq_true, ite_false,
    if_false]

theorem urlparsePy_render_short (scheme host path : List Char)
    (hs : GoodScheme scheme) (hh : GoodHost host) (hp : GoodPath path) :
    urlparsePy [] (scheme ++ ':' :: '/' :: '/' :: (host ++ path))
      = .ok ⟨scheme, host, path, [], [], []⟩ := by
  have hsplit := urlsplitPy_render_short scheme host path hs hh hp
  have hsemi : path.contains ';' = false :=
    contains_eq_false_of_forall_ne _ _ (fun c hc => (hp.2 c hc).2.2.2.2)
  simp only [urlparsePy, hsplit, Except.map, hsemi, Bool.and_false, Bool.false_eq_true, ite_false,
    if_false]

-- rstripSlashes lemmas
theorem rstripSlashes_cons_of_ne_nil (c : Char) (t : List Char) (h : rstripSlashes t ≠ []) :
    rstripSlashes (c :: t) = c :: rstripSlashes t := by
  cases hr : rstripSlashes t with
  | nil => exact absurd hr h
  | cons r0 rt => simp only [rstripSlashes, hr]

theorem rstripSlashes_concat_ne (xs : List Char) (c : Char) (hc : c ≠ '/') :
    rstripSlashes (xs ++ [c]) = xs ++ [c] := by
  induction xs with
  | nil => simp [rstripSlashes, hc]
  | cons x t ih =>
    rw [List.cons_append, rstripSlashes_cons_of_ne_nil x (t ++ [c]) (by rw [ih]; simp), ih]

theorem rstripSlashes_append (a b : List Char) :
    rstripSlashes (a ++ b) =
      if rstripSlashes b = [] then rstripSlashes a else a ++ rstripSlashes b := by
  induction a with
  | nil =>
    simp only [List.nil_append]
    split
    next h => rw [h]; rfl
    next h => rfl
  | cons x t ih =>
    by_cases hb : rstripSlashes b = []
    · rw [if_pos hb]
      rw [if_pos hb] at ih
      rw [List.cons_append]
      show rstripSlashes (x :: (t ++ b)) = rstripSlashes (x :: t)
      simp only [rstripSlashes, ih]
    · rw [if_neg hb]
      rw [if_neg hb] at ih
      rw [List.cons_append, rstripSlashes_cons_of_ne_nil x (t ++ b) (by rw [ih]; simp [hb]),
        ih, List.cons_append]

theorem rstripSlashes_idem (l : List Char) :
    rstripSlashes (rstripSlashes l) = rstripSlashes l := by
  induction l with
  | nil => rfl
  | cons c t ih =>
    cases hr : rstripSlashes t with
    | nil =>
      have h1 : rstripSlashes (c :: t) = if c = '/' then [] else [c] := by
        simp only [rstripSlashes, hr]
      by_cases hc : c = '/'
      · rw [h1, if_pos hc]; rfl
      · rw [h1, if_neg hc]
        simp [rstripSlashes, hc]
    | cons r0 rt =>
      have hne : rstripSlashes t ≠ [] := by rw [hr]; simp
      rw [rstripSlashes_cons_of_ne_nil c t hne,
        rstripSlashes_cons_of_ne_nil c (rstripSlashes t) (by rw [ih]; exact hne), ih]

theorem rstripSlashes_head (p : Char) (t : List Char) :
    rstripSlashes (p :: t) = [] ∨ (rstripSlashes (p :: t)).headD ' ' = p := by
  simp only [rstripSlashes]
  cases rstripSlashes t with
  | nil =>
    by_cases hp : p = '/'
    · left; simp [hp]
    · right; simp [hp]
  | cons r0 rt => right; rfl

theorem mem_of_mem_rstripSlashes (c : Char) (l : List Char) (h : c ∈ rstripSlashes l) :
    c ∈ l := by
  induction l with
  | nil => simp [rstripSlashes] at h
  | cons x t ih =>
    simp only [rstripSlashes] at h
    cases hr : rstripSlashes t with
    | nil =>
      rw [hr] at h
      by_cases hx : x = '/'
      · simp [hx] at h
      · simp [hx] at h
        subst h
        exact List.mem_cons_self _ _
    | cons r0 rt =>
      rw [hr] at h
      rcases List.mem_cons.mp h with rfl | hm
      · exact List.mem_cons_self _ _
      · exact List.mem_cons_of_mem _ (ih (by rw [hr]; exact hm))

theorem GoodPath_rstrip (path : List Char) (hp : GoodPath path) :
    GoodPath (rstripSlashes path) := by
  constructor
  · rcases hp.1 with hpe | hph
    · subst hpe; left; rfl
    · cases path with
      | nil => left; rfl
      | cons p0 t =>
        simp only [List.headD_cons] at hph
        rcases rstripSlashes_head p0 t with h | h
        · left; exact h
        · right; rw [h, hph]
  · intro c hc
    exact hp.2 c (mem_of_mem_rstripSlashes c path hc)

theorem rstripSlashes_eq_of_ends_nonslash (a b : List Char)
    (h : ∃ xs c, a = xs ++ [c] ∧ c ≠ '/') :
    rstripSlashes (a ++ b) = a ++ rstripSlashes b := by
  obtain ⟨xs, c, rfl, hc⟩ := h
  rw [rstripSlashes_append]
  by_cases hb : rstripSlashes b = []
  · rw [if_pos hb, rstripSlashes_concat_ne _ _ hc, hb, List.append_nil]
  · rw [if_neg hb]

-- normalize_url on rendered well-formed URLs
theorem normalize_url_render (scheme host path query fragment : List Char)
    (hs : GoodScheme scheme) (hh : GoodHost host) (hp : GoodPath path)
    (hq : GoodQuery query) (hf : GoodFrag fragment) :
    normalize_url (String.mk
        (scheme ++ ':' :: '/' :: '/' :: (host ++ path ++ '?' :: query ++ '#' :: fragment)))
      = .ok (String.mk (scheme ++ ':' :: '/' :: '/' :: (host ++ rstripSlashes path))) := by
  have hparse := urlparsePy_render scheme host path query fragment hs hh hp hq hf
  have htl : (String.mk
        (scheme ++ ':' :: '/' :: '/' :: (host ++ path ++ '?' :: query ++ '#' :: fragment))).toList
      = scheme ++ ':' :: '/' :: '/' :: (host ++ path ++ '?' :: query ++ '#' :: fragment) := rfl
  simp only [normalize_url, htl, hparse]
  have hshape : scheme ++ ':' :: '/' :: '/' :: (host ++ path)
      = (scheme ++ ':' :: '/' :: '/' :: host) ++ path := by simp
  have hend : ∃ xs c, scheme ++ ':' :: '/' :: '/' :: host = xs ++ [c] ∧ c ≠ '/' := by
    rcases host.eq_nil_or_concat with hnil | ⟨h0, hl, rfl⟩
    · exact absurd hnil hh.1
    · exact ⟨scheme ++ ':' :: '/' :: '/' :: h0, hl, by simp,
        (hh.2 hl (by simp)).2.2.1⟩
  rw [hshape, rstripSlashes_eq_of_ends_nonslash _ _ hend]
  simp

theorem normalize_url_render_short (scheme host path : List Char)
    (hs : GoodScheme scheme) (hh : GoodHost host) (hp : GoodPath path) :
    normalize_url (String.mk (scheme ++ ':' :: '/' :: '/' :: (host ++ path)))
      = .ok (String.mk (scheme ++ ':' :: '/' :: '/' :: (host ++ rstripSlashes path))) := by
  have hparse := urlparsePy_render_short scheme host path hs hh hp
  have htl : (String.mk (scheme ++ ':' :: '/' :: '/' :: (host ++ path))).toList
      = scheme ++ ':' :: '/' :: '/' :: (host ++ path) := rfl
  simp only [normalize_url, htl, hparse]
  have hshape : scheme ++ ':' :: '/' :: '/' :: (host ++ path)
      = (scheme ++ ':' :: '/' :: '/' :: host) ++ path := by simp
  have hend : ∃ xs c, scheme ++ ':' :: '/' :: '/' :: host = xs ++ [c] ∧ c ≠ '/' := by
    rcases host.eq_nil_or_concat with hnil | ⟨h0, hl, rfl⟩
    · exact absurd hnil hh.1
    · exact ⟨scheme ++ ':' :: '/' :: '/' :: h0, hl, by simp,
        (hh.2 hl (by simp)).2.2.1⟩
  rw [hshape, rstripSlashes_eq_of_ends_nonslash _ _ hend]
  simp

-- subset lemmas towards the no-raise theorem
theorem splitAtChar_snd_subset (ch : Char) (l r : List Char)
    (h : (splitAtChar ch l).2 = some r) : ∀ c ∈ r, c ∈ l := by
  induction l generalizing r with
  | nil => simp [splitAtChar] at h
  | cons x t ih =>
    by_cases hx : x = ch
    · simp [splitAtChar, hx] at h
      subst h
      intro c hc
      exact List.mem_cons_of_mem _ hc
    · simp [splitAtChar, hx] at h
      intro c hc
      exact List.mem_cons_of_mem _ (ih r h c hc)

theorem splitSchemePy_snd_subset (ds u : List Char) :
    ∀ c ∈ (splitSchemePy ds u).2, c ∈ u := by
  intro c hc
  unfold splitSchemePy at hc
  split at hc
  next c0 pre rest heq =>
    split at hc
    next => exact splitAtChar_snd_subset ':' u rest (by rw [heq]) c hc
    next => exact hc
  next => exact hc

theorem splitNetlocPy_fst_subset (u : List Char) :
    ∀ c ∈ (splitNetlocPy u).1, c ∈ u := by
  intro c hc
  unfold splitNetlocPy at hc
  split at hc
  next rest =>
    exact List.mem_cons_of_mem _ (List.mem_cons_of_mem _
      ((List.takeWhile_sublist _).subset hc))
  next => simp at hc

theorem preprocessURL_subset (l : List Char) : ∀ c ∈ preprocessURL l, c ∈ l := by
  intro c hc
  unfold preprocessURL at hc
  exact (List.dropWhile_sublist _).subset ((List.filter_sublist _).subset hc)

theorem urlsplitPy_ok_of_no_brackets (ds url : List Char)
    (h1 : ('[' : Char) ∉ url) (h2 : (']' : Char) ∉ url) :
    ∃ r, urlsplitPy ds url = .ok r := by
  have hsub : ∀ c ∈ (splitNetlocPy (splitSchemePy ds (preprocessURL url)).2).1, c ∈ url := by
    intro c hc
    exact preprocessURL_subset url c
      (splitSchemePy_snd_subset ds (preprocessURL url) c (splitNetlocPy_fst_subset _ c hc))
  have hb1 : ((splitNetlocPy (splitSchemePy ds (preprocessURL url)).2).1).contains '[' = false :=
    contains_eq_false_of_forall_ne _ _ (fun c hc he => h1 (he ▸ hsub c hc))
  have hb2 : ((splitNetlocPy (splitSchemePy ds (preprocessURL url)).2).1).contains ']' = false :=
    contains_eq_false_of_forall_ne _ _ (fun c hc he => h2 (he ▸ hsub c hc))
  cases hres : urlsplitPy ds url with
  | error e =>
    simp only [urlsplitPy, hb1, hb2, Bool.false_and, Bool.and_false, Bool.not_false,
      Bool.false_or, Bool.or_self, Bool.false_eq_true, ite_false, if_false] at hres
    exact Except.noConfusion hres
  | ok r => exact ⟨r, rfl⟩

theorem urlparsePy_ok_of_no_brackets (url : List Char)
    (h1 : ('[' : Char) ∉ url) (h2 : (']' : Char) ∉ url) :
    ∃ p, urlparsePy [] url = .ok p := by
  obtain ⟨r, hr⟩ := urlsplitPy_ok_of_no_brackets [] url h1 h2
  cases hres : urlparsePy [] url with
  | error e =>
    unfold urlparsePy at hres
    rw [hr] at hres
    exact Except.noConfusion hres
  | ok p => exact ⟨p, rfl⟩

-- claim theorems C7, C8, C9
/-- Claim C7 (counterexample): normalize_url is not idempotent on all strings — the empty string normalizes to ":" but ":" normalizes to "://:". -/
theorem claim7_counterexample :
    normalize_url "" = .ok ":" ∧ normalize_url ":" = .ok "://:" ∧ (":" : String) ≠ "://:" :=
  ⟨rfl, rfl, by decide⟩

/-- Claim C7 (corrected): on every well-formed rendered URL (well-formed scheme, host, path, query and fragment assembled as scheme://host path ?query #fragment), normalize_url succeeds, and it is idempotent there: normalizing its own output returns that output unchanged. -/
theorem claim7_idempotent_on_wf (scheme host path query fragment : List Char)
    (hs : GoodScheme scheme) (hh : GoodHost host) (hp : GoodPath path)
    (hq : GoodQuery query) (hf : GoodFrag fragment) :
    ∃ v, normalize_url (String.mk
        (scheme ++ ':' :: '/' :: '/' :: (host ++ path ++ '?' :: query ++ '#' :: fragment)))
        = .ok v
      ∧ normalize_url v = .ok v := by
  refine ⟨String.mk (scheme ++ ':' :: '/' :: '/' :: (host ++ rstripSlashes path)), ?_, ?_⟩
  · exact normalize_url_render scheme host path query fragment hs hh hp hq hf
  · have h := normalize_url_render_short scheme host (rstripSlashes path) hs hh
      (GoodPath_rstrip path hp)
    rw [rstripSlashes_idem] at h
    exact h

theorem claim7_witness :
    ∃ v, normalize_url (String.mk
        (['h','t','t','p','s'] ++ ':' :: '/' :: '/' ::
          (['x','.','e','d','u'] ++ ['/','a','/','b','/'] ++ '?' :: ['r','e','f','=','1']
            ++ '#' :: ['x'])))
        = .ok v
      ∧ normalize_url v = .ok v :=
  claim7_idempotent_on_wf ['h','t','t','p','s'] ['x','.','e','d','u'] ['/','a','/','b','/']
    ['r','e','f','=','1'] ['x'] (by decide) (by decide) (by decide) (by decide) (by decide)

/-- Claim C8 (counterexample): normalize_url strips every trailing slash, not exactly one — "https://x.edu/a/b//" normalizes to "https://x.edu/a/b", not to "https://x.edu/a/b/". -/
theorem claim8_counterexample :
    normalize_url "https://x.edu/a/b//" = .ok "https://x.edu/a/b"
      ∧ ("https://x.edu/a/b" : String) ≠ "https://x.edu/a/b/" :=
  ⟨rfl, by decide⟩

/-- Claim C8 (corrected): on every well-formed rendered URL, normalize_url keeps only scheme, host and path, discards the query string and the fragment, and strips all trailing slashes of the path (`rstripSlashes`). -/
theorem claim8_normalize_wf (scheme host path query fragment : List Char)
    (hs : GoodScheme scheme) (hh : GoodHost host) (hp : GoodPath path)
    (hq : GoodQuery query) (hf : GoodFrag fragment) :
    normalize_url (String.mk
        (scheme ++ ':' :: '/' :: '/' :: (host ++ path ++ '?' :: query ++ '#' :: fragment)))
      = .ok (String.mk (scheme ++ ':' :: '/' :: '/' :: (host ++ rstripSlashes path))) :=
  normalize_url_render scheme host path query fragment hs hh hp hq hf

theorem claim8_witness :
    normalize_url (String.mk
        (['h','t','t','p','s'] ++ ':' :: '/' :: '/' ::
          (['x','.','e','d','u'] ++ ['/','a','/','b','/'] ++ '?' :: ['r','e','f','=','1']
            ++ '#' :: ['x'])))
      = .ok (String.mk (['h','t','t','p','s'] ++ ':' :: '/' :: '/' ::
          (['x','.','e','d','u'] ++ rstripSlashes ['/','a','/','b','/']))) :=
  claim8_normalize_wf ['h','t','t','p','s'] ['x','.','e','d','u'] ['/','a','/','b','/']
    ['r','e','f','=','1'] ['x'] (by decide) (by decide) (by decide) (by decide) (by decide)

/-- Claim C9 (counterexample): normalize_url propagates the ValueError urlparse raises on the malformed input "http://[x" (an unbalanced bracket in the netloc), so it does not return a string for every input. -/
theorem claim9_counterexample : normalize_url "http://[x" = .error () := rfl

/-- Claim C9 (corrected): on every ASCII input string containing neither an opening nor a closing square bracket, normalize_url returns a string and never raises. -/
theorem claim9_no_raise (url : String)
    (hascii : ∀ c ∈ url.toList, c.toNat < 128)
    (h1 : ('[' : Char) ∉ url.toList) (h2 : (']' : Char) ∉ url.toList) :
    ∃ s, normalize_url url = .ok s := by
  obtain ⟨p, hp⟩ := urlparsePy_ok_of_no_brackets url.toList h1 h2
  cases hres : normalize_url url with
  | error e =>
    unfold normalize_url at hres
    rw [hp] at hres
    exact Except.noConfusion hres
  | ok s => exact ⟨s, rfl⟩

theorem claim9_witness : ∃ s, normalize_url "http://x/a" = .ok s :=
  claim9_no_raise "http://x/a" (by decide) (by decide) (by decide)

-- claim2 witness
theorem claim2_witness :
    processCardO ⟨fun _ => true, fun _ => none⟩ ⟨[], [], 0, 0⟩
        ⟨some ⟨"/newsroom/news/a", "T"⟩, none, none, none⟩ =
      (⟨["https://www.insead.edu/newsroom/news/a"],
        [mkRecord "T" "" "https://www.insead.edu/newsroom/news/a" none], 1, 0⟩, .added)
    ∧ processCardO ⟨fun _ => true, fun _ => none⟩
        ⟨["https://www.insead.edu/newsroom/news/a"],
         [mkRecord "T" "" "https://www.insead.edu/newsroom/news/a" none], 1, 0⟩
        ⟨some ⟨"/newsroom/news/a", "T"⟩, none, none, none⟩ =
      (⟨["https://www.insead.edu/newsroom/news/a"],
        [mkRecord "T" "" "https://www.insead.edu/newsroom/news/a" none], 1, 1⟩, .skippedDup) :=
  claim2_second_offer_skipped ⟨fun _ => true, fun _ => none⟩ ⟨[], [], 0, 0⟩
    ⟨some ⟨"/newsroom/news/a", "T"⟩, none, none, none⟩
    ⟨"/newsroom/news/a", "T"⟩ "https://www.insead.edu/newsroom/news/a" ""
    rfl rfl (by simp) rfl rfl
